import Mathlib

/-!
Verification of the record-indexing core (`packages/server/src/db/index.ts`):
a shallow embedding of the `Database` class (generic record log, per-collection
plugin tables, notifications, repo roots, users) and the `rowToFeedItem` feed
projector, with theorems settling the specified properties.

Database state is modelled as explicit lists of rows; each `async` method of
the class becomes a pure function from state to state (returning
`Except (DbError × DbState) DbState` where the method can throw, the error
carrying the state at the moment of the throw, since the store never rolls
back). SQL queries are modelled by list filtering/sorting/limiting; `ORDER BY`
tie order is unconstrained by SQL, so the model picks insertion-sort order.
-/

/-- A JSON document.  Record payloads (`obj : unknown`) are JSON values; the
source stores `JSON.stringify(obj)` in the `raw` column and reads it back with
`JSON.parse`, which round-trips on JSON values, so the model stores the value
itself. -/
inductive Json where
  | null : Json
  | bool (b : Bool) : Json
  | num (n : Int) : Json
  | str (s : String) : Json
  | arr (elems : List Json) : Json
  | obj (fields : List (String × Json)) : Json
deriving Repr

/-- Modelled from the spec (the `@adxp/uri` package is outside the excerpted
source): a `RecordURI` is `{did, collection, recordKey}`, canonically
serializable to a single string.  The source accesses the did as `uri.host`. -/
structure AdxUri where
  host : String
  collection : String
  recordKey : String
deriving DecidableEq, Repr

/-- Canonical string form of a record URI (the primary key of the generic
log), e.g. `at://did:x/app.x.repost/abc`. -/
def AdxUri.toStr (u : AdxUri) : String :=
  "at://" ++ u.host ++ "/" ++ u.collection ++ "/" ++ u.recordKey

/-- Modelled from the spec (the `@adxp/lexicon` package is outside the
excerpted source): result codes of a schema validation verdict (`part` stands
for the partial-compatibility code). -/
inductive ValidationResultCode where
  | full
  | part
  | incompatible
  | invalid
deriving DecidableEq, Repr

/-- Modelled from the spec: a validation verdict carrying at least
`{valid, code, message}`; validation failures are data, not exceptions. -/
structure ValidationResult where
  code : ValidationResultCode := .full
  valid : Bool := true
  messages : List String := []
deriving Repr

/-- Modelled from the spec: recording an error on a verdict (the `_t` call of
the lexicon library) sets the code, marks the verdict invalid, and appends the
message. -/
def ValidationResult.addError (res : ValidationResult) (code : ValidationResultCode)
    (msg : String) : ValidationResult :=
  { res with code := code, valid := false, messages := res.messages ++ [msg] }

/-- Modelled from the spec: a notification event
`{recipientDid, sourceUri, reason}` produced by a plugin from a freshly
written record; deleted when the originating record is deleted. -/
structure NotificationEvent where
  recipientDid : String
  sourceUri : String
  reason : String
deriving DecidableEq, Repr

/-- JS `String.prototype.startsWith`, modelled on the character list of the
string. -/
def strStartsWith (s p : String) : Bool :=
  p.data.isPrefixOf s.data

/-- SQL string comparison (`recordKey < bound`), modelled as lexicographic
order on the character list. -/
def strLt (a b : String) : Bool :=
  decide (a.data < b.data)

/-- One row of the generic record log (`record` table); primary key is the
serialized URI. -/
structure RawRecord where
  uri : String
  did : String
  collection : String
  recordKey : String
  raw : Json
  indexedAt : String
  receivedAt : String
deriving Repr

/-- One row of the `user` table. -/
structure UserRow where
  did : String
  username : String
  email : String
  password : String
  createdAt : String
  lastSeenNotifs : String
deriving DecidableEq, Repr

/-- The database state: the generic record log, the union of the typed
per-collection tables (each row tagged with its owning collection), the
notifications store, the `repo_root` table and the `user` table.  Content
addresses (CIDs) are opaque strings. -/
structure DbState where
  record : List RawRecord
  typed : List (String × String × Json)
  notifications : List NotificationEvent
  repoRoot : List (String × String)
  user : List UserRow
deriving Repr

/-- A record plugin (`DbRecordPlugin`): its dispatch key, its schema
validator and its pure notification derivation.  The six concrete plugins
(post, like, repost, follow, badge, profile) live outside the excerpted
source, so theorems quantify over arbitrary plugins. -/
structure DbRecordPlugin where
  collection : String
  validateSchema : Json → ValidationResult
  notifsForRecord : AdxUri → Json → List NotificationEvent

/-- The `Database` class: its registered record plugins, in the order of
`Object.values(this.records)`. -/
structure Database where
  records : List DbRecordPlugin

/-- Errors thrown by the store: `thrown msg` models `throw new Error(msg)` in
`index.ts`; `storageFailure` models an underlying backend write error (such as
a primary-key conflict on the generic log). -/
inductive DbError where
  | thrown (msg : String)
  | storageFailure
deriving DecidableEq, Repr

/-- Modelled from the spec (§4.1; the plugin implementations are outside the
excerpted source): `plugin.insert(uri, obj)` projects `obj` into the plugin's
typed table keyed by `uri`. -/
def pluginInsert (p : DbRecordPlugin) (uri : AdxUri) (obj : Json) (s : DbState) : DbState :=
  { s with typed := s.typed ++ [(p.collection, uri.toStr, obj)] }

/-- Modelled from the spec (§4.1): `plugin.delete(uri)` removes the row(s)
keyed by `uri` from the plugin's typed table; deleting a non-existent URI is a
no-op. -/
def pluginDelete (p : DbRecordPlugin) (uri : AdxUri) (s : DbState) : DbState :=
  { s with typed := s.typed.filter fun row => ¬(row.1 = p.collection ∧ row.2.1 = uri.toStr) }

/-- Modelled from the spec (the notifications plugin is outside the excerpted
source): `notifications.process` persists the derived events. -/
def notificationsProcess (notifs : List NotificationEvent) (s : DbState) : DbState :=
  { s with notifications := s.notifications ++ notifs }

/-- Modelled from the spec: `notifications.deleteForRecord(uri)` removes the
events whose source is the deleted record. -/
def notificationsDeleteForRecord (uri : AdxUri) (s : DbState) : DbState :=
  { s with notifications := s.notifications.filter fun n => n.sourceUri ≠ uri.toStr }

/-- `findTableForCollection`: linear search over the registered plugins for
one whose `collection` equals the argument; throws when none is registered. -/
def Database.findTableForCollection (db : Database) (collection : String) :
    Except DbError DbRecordPlugin :=
  match db.records.find? (fun plugin => plugin.collection == collection) with
  | some found => .ok found
  | none => .error (.thrown "Could not find table for collection")

/-- `validateRecord(collection, obj)`: resolves the plugin; if the lookup
throws, returns an `Incompatible` verdict with message `Schema not found`
instead of propagating; otherwise delegates to the plugin's
`validateSchema`. -/
def Database.validateRecord (db : Database) (collection : String) (obj : Json) :
    ValidationResult :=
  match db.findTableForCollection collection with
  | .error _ => ValidationResult.addError {} .incompatible "Schema not found"
  | .ok table => table.validateSchema obj

/-- `canIndexRecord(collection, obj)`: resolves the plugin (propagating the
lookup error) and returns whether validation succeeded. -/
def Database.canIndexRecord (db : Database) (collection : String) (obj : Json) :
    Except DbError Bool :=
  match db.findTableForCollection collection with
  | .error e => .error e
  | .ok table => .ok (table.validateSchema obj).valid

/-- `indexRecord(uri, obj)`: builds the `RawRecord` (both timestamps from
`new Date()`, modelled by the `now` argument), fail-fast validates the URI,
inserts into the generic log (the backend rejects a primary-key conflict),
resolves the plugin and runs its `insert`, then derives and processes
notifications.  Errors carry the state at the throw: the log insert is not
rolled back when plugin resolution fails afterwards. -/
def Database.indexRecord (db : Database) (uri : AdxUri) (obj : Json) (now : String)
    (s : DbState) : Except (DbError × DbState) DbState :=
  let record : RawRecord :=
    { uri := uri.toStr, did := uri.host, collection := uri.collection,
      recordKey := uri.recordKey, raw := obj, indexedAt := now, receivedAt := now }
  if strStartsWith record.did "did:" = false then
    .error (.thrown "Expected indexed URI to contain DID", s)
  else if record.collection.length < 1 then
    .error (.thrown "Expected indexed URI to contain a collection", s)
  else if record.recordKey.length < 1 then
    .error (.thrown "Expected indexed URI to contain a record key", s)
  else if s.record.any (fun r => r.uri == record.uri) then
    .error (.storageFailure, s)
  else
    let s₁ : DbState := { s with record := s.record ++ [record] }
    match db.findTableForCollection uri.collection with
    | .error e => .error (e, s₁)
    | .ok table =>
      let s₂ := pluginInsert table uri obj s₁
      .ok (notificationsProcess (table.notifsForRecord uri obj) s₂)

/-- `deleteRecord(uri)`: resolves the plugin (throwing before any removal when
none is registered), then issues the typed-table delete, the generic-log
delete and the notification delete. -/
def Database.deleteRecord (db : Database) (uri : AdxUri) (s : DbState) :
    Except (DbError × DbState) DbState :=
  match db.findTableForCollection uri.collection with
  | .error e => .error (e, s)
  | .ok table =>
    let s₁ := pluginDelete table uri s
    let s₂ : DbState := { s₁ with record := s₁.record.filter fun r => r.uri ≠ uri.toStr }
    .ok (notificationsDeleteForRecord uri s₂)

/-- `getRecord(uri)`: point lookup in the generic log by serialized URI,
returning the parsed payload or null. -/
def getRecord (s : DbState) (uri : AdxUri) : Option Json :=
  match s.record.find? (fun r => r.uri == uri.toStr) with
  | some r => some r.raw
  | none => none

/-- `listCollectionsForDid(did)`: scan of the generic log filtered by
identity, projecting the collection column (no deduplication). -/
def listCollectionsForDid (s : DbState) (did : String) : List String :=
  (s.record.filter fun r => r.did == did).map fun r => r.collection

/-- `ORDER BY recordKey ASC` on log rows (weak order; SQL leaves tie order
free, the model resolves ties by insertion sort). -/
def keyAsc (a b : RawRecord) : Prop :=
  a.recordKey.data ≤ b.recordKey.data

/-- `ORDER BY recordKey DESC` on log rows. -/
def keyDesc (a b : RawRecord) : Prop :=
  b.recordKey.data ≤ a.recordKey.data

/-- Strict ascending key order (the order of rows with pairwise-distinct
keys). -/
def keyLt (a b : RawRecord) : Prop :=
  a.recordKey.data < b.recordKey.data

/-- Strict descending key order. -/
def keyGt (a b : RawRecord) : Prop :=
  b.recordKey.data < a.recordKey.data

instance : DecidableRel keyAsc :=
  fun a b => inferInstanceAs (Decidable (a.recordKey.data ≤ b.recordKey.data))

instance : DecidableRel keyDesc :=
  fun a b => inferInstanceAs (Decidable (b.recordKey.data ≤ a.recordKey.data))

instance : IsTotal RawRecord keyAsc :=
  ⟨fun a b => le_total a.recordKey.data b.recordKey.data⟩

instance : IsTrans RawRecord keyAsc :=
  ⟨fun _ _ _ h h' => le_trans h h'⟩

instance : IsTotal RawRecord keyDesc :=
  ⟨fun a b => le_total b.recordKey.data a.recordKey.data⟩

instance : IsTrans RawRecord keyDesc :=
  ⟨fun _ _ _ h h' => le_trans h' h⟩

instance : IsAntisymm RawRecord keyGt :=
  ⟨fun _ _ h h' => absurd h (lt_asymm h')⟩

/-- The WHERE clause of `listRecordsForCollection`: rows of the given identity
and collection within the optional exclusive `before`/`after` bounds on
`recordKey`. -/
def matchesQuery (did collection : String) (before after : Option String)
    (r : RawRecord) : Bool :=
  r.did == did && r.collection == collection
    && (match before with | some b => strLt r.recordKey b | none => true)
    && (match after with | some a => strLt a r.recordKey | none => true)

/-- The rows selected by `listRecordsForCollection`: filter, order by
`recordKey` ascending or descending per `reverse`, bound by `limit`. -/
def listRecordsRows (s : DbState) (did collection : String) (limit : Nat)
    (reverse : Bool) (before after : Option String) : List RawRecord :=
  let rows := s.record.filter (matchesQuery did collection before after)
  let sorted :=
    if reverse then
      List.insertionSort keyDesc rows
    else
      List.insertionSort keyAsc rows
  sorted.take limit

/-- `listRecordsForCollection(did, collection, limit, reverse, before?,
after?)`: the selected rows projected to `{uri, value}`. -/
def Database.listRecordsForCollection (s : DbState) (did collection : String)
    (limit : Nat) (reverse : Bool) (before after : Option String) :
    List (String × Json) :=
  (listRecordsRows s did collection limit reverse before after).map fun r => (r.uri, r.raw)

/-- `getRepoRoot(did)`: single-row lookup in `repo_root` (the stored string is
parsed back to a CID; `CID.parse ∘ toString` is the identity on the opaque
root). -/
def getRepoRoot (s : DbState) (did : String) : Option String :=
  match s.repoRoot.find? (fun p => p.1 == did) with
  | some p => some p.2
  | none => none

/-- `updateRepoRoot(did, root)`: an UPDATE setting `root` on the rows whose
`did` matches — it inserts nothing when no such row exists. -/
def updateRepoRoot (s : DbState) (did root : String) : DbState :=
  { s with repoRoot := s.repoRoot.map fun p => if p.1 = did then (p.1, root) else p }

/-- SQL `UPPER` / JS `toUpperCase`, modelled as ASCII case folding on the
character list. -/
def upper (s : String) : String :=
  ⟨s.data.map Char.toUpper⟩

/-- `getUser(usernameOrDid)`: lookup by `did` when the argument carries the
identity prefix, otherwise case-insensitive lookup by username
(`UPPER(username) = UPPER(arg)`). -/
def getUser (s : DbState) (usernameOrDid : String) : Option UserRow :=
  if strStartsWith usernameOrDid "did:" then
    s.user.find? fun u => u.did == usernameOrDid
  else
    s.user.find? fun u => upper u.username == upper usernameOrDid

/-- `verifyUserPassword(username, password)`: exact (case-sensitive) lookup by
username, then scrypt verification (the scrypt module is external; it is the
`verify` argument), returning the user's did on success and null otherwise. -/
def verifyUserPassword (verify : String → String → Bool) (s : DbState)
    (username password : String) : Option String :=
  match s.user.find? (fun u => u.username == username) with
  | none => none
  | some found => if verify password found.password then some found.did else none

/-- The discriminator of a feed row: `'post' | 'repost'`. -/
inductive FeedRowType where
  | post
  | repost
deriving DecidableEq, Repr

/-- A denormalized feed join row (`FeedRow`).  `recordRaw` holds the stored
JSON payload (kept as its parsed value, see `Json`). -/
structure FeedRow where
  type : FeedRowType
  postUri : String
  cursor : String
  recordRaw : Json
  indexedAt : String
  authorDid : String
  authorName : String
  authorDisplayName : Option String
  originatorDid : String
  originatorName : String
  originatorDisplayName : Option String
  likeCount : Int
  repostCount : Int
  replyCount : Int
  requesterRepost : Option String
  requesterLike : Option String

/-- An actor reference inside a feed item (`{did, name, displayName?}`);
`displayName ?? undefined` is `Option`. -/
structure ActorRef where
  did : String
  name : String
  displayName : Option String
deriving DecidableEq, Repr

/-- The requester's own interaction state on a feed item. -/
structure MyState where
  repost : Option String
  like : Option String
deriving DecidableEq, Repr

/-- A client-facing feed item. -/
structure FeedItem where
  cursor : String
  uri : String
  author : ActorRef
  repostedBy : Option ActorRef
  record : Json
  replyCount : Int
  repostCount : Int
  likeCount : Int
  indexedAt : String
  myState : MyState

/-- `rowToFeedItem(row)`: the pure projection from a feed join row to a feed
item. -/
def rowToFeedItem (row : FeedRow) : FeedItem :=
  { cursor := row.cursor
    uri := row.postUri
    author :=
      { did := row.authorDid, name := row.authorName,
        displayName := row.authorDisplayName }
    repostedBy :=
      if row.type = .repost then
        some { did := row.originatorDid, name := row.originatorName,
               displayName := row.originatorDisplayName }
      else
        none
    record := row.recordRaw
    replyCount := row.replyCount
    repostCount := row.repostCount
    likeCount := row.likeCount
    indexedAt := row.indexedAt
    myState := { repost := row.requesterRepost, like := row.requesterLike } }

/-! ## Concrete fixtures used by witnesses and counterexamples -/

/-- A sample registered plugin (its collection name is its dispatch key). -/
def okPlugin : DbRecordPlugin :=
  { collection := "app.bsky.post", validateSchema := fun _ => {},
    notifsForRecord := fun _ _ => [] }

/-- A database with one registered plugin. -/
def exDb : Database := { records := [okPlugin] }

/-- A database with no registered plugins. -/
def emptyDb : Database := { records := [] }

/-- The empty database state. -/
def emptyState : DbState :=
  { record := [], typed := [], notifications := [], repoRoot := [], user := [] }

/-- A sample record URI owned by `did:alice` in the plugin's collection. -/
def exUri1 : AdxUri := ⟨"did:alice", "app.bsky.post", "k1"⟩

/-- The generic-log row `indexRecord` builds for `exUri1`. -/
def exRec1 : RawRecord :=
  { uri := "at://did:alice/app.bsky.post/k1", did := "did:alice",
    collection := "app.bsky.post", recordKey := "k1", raw := .str "hello",
    indexedAt := "t0", receivedAt := "t0" }

/-- The state after indexing `exUri1` into the empty state. -/
def oneRecState : DbState :=
  { record := [exRec1],
    typed := [("app.bsky.post", "at://did:alice/app.bsky.post/k1", .str "hello")],
    notifications := [], repoRoot := [], user := [] }

/-- A state whose repo-root table has a row for `did:alice`. -/
def rootState : DbState :=
  { record := [], typed := [], notifications := [], repoRoot := [("did:alice", "cid0")],
    user := [] }

/-- A sample user row, stored with mixed-case username. -/
def exUser : UserRow :=
  { did := "did:u", username := "Alice", email := "alice@example.com",
    password := "hash0", createdAt := "t0", lastSeenNotifs := "t0" }

/-- A state whose user table has exactly `exUser`. -/
def userState : DbState :=
  { record := [], typed := [], notifications := [], repoRoot := [], user := [exUser] }

/-- The feed row of the specified projection scenario (a repost by `did:y` of
a post authored by `did:x`, with the requester's own repost present and no
like). -/
def exFeedRow : FeedRow :=
  { type := .repost, postUri := "at://did:x/app.x.post/p1", cursor := "cur",
    recordRaw := .obj [], indexedAt := "t1",
    authorDid := "did:x", authorName := "x.test", authorDisplayName := none,
    originatorDid := "did:y", originatorName := "y.test", originatorDisplayName := none,
    likeCount := 0, repostCount := 1, replyCount := 0,
    requesterRepost := some "at://did:x/app.x.repost/abc", requesterLike := none }

/-! ## Helper lemmas -/

/-- Updating matched rows rewrites the found row's value in place. -/
theorem find?_fst_update (l : List (String × String)) (did root : String)
    (q : String × String) (h : l.find? (fun p => p.1 == did) = some q) :
    (l.map fun p => if p.1 = did then (p.1, root) else p).find? (fun p => p.1 == did) =
      some (q.1, root) := by
  induction l with
  | nil => simp at h
  | cons a l ih =>
    by_cases ha : a.1 = did
    · rw [List.find?_cons_of_pos _ (by simp [ha])] at h
      injection h with h
      subst h
      rw [List.map_cons, if_pos ha, List.find?_cons_of_pos _ (by simp [ha])]
    · rw [List.find?_cons_of_neg _ (by simp [ha])] at h
      rw [List.map_cons, if_neg ha, List.find?_cons_of_neg _ (by simp [ha])]
      exact ih h

/-- An UPDATE whose WHERE clause matches no row leaves the table unchanged. -/
theorem map_update_of_find?_none (l : List (String × String)) (did root : String)
    (h : l.find? (fun p => p.1 == did) = none) :
    (l.map fun p => if p.1 = did then (p.1, root) else p) = l := by
  have h' := List.find?_eq_none.mp h
  refine (List.map_congr_left fun a ha => ?_).trans (List.map_id l)
  have hne : ¬ a.1 = did := by simpa using h' a ha
  simp [hne]

/-! ## C3 — repo roots -/

/-- C3 counterexample: `updateRepoRoot` is an UPDATE, not an upsert — for an
identity with no existing `repo_root` row it writes nothing, so the
subsequent `getRepoRoot` does not return the new root, contradicting the
claim that the update unconditionally takes effect. -/
theorem updateRepoRoot_absent_cex :
    getRepoRoot (updateRepoRoot emptyState "did:alice" "cid1") "did:alice" ≠ some "cid1" := by
  decide

/-- C3 (amended): `updateRepoRoot(did, root)` unconditionally overwrites the
root of an identity that already has a row (last-writer-wins, no concurrency
check), so `getRepoRoot(did)` then returns `root`; but when `did` has no row
the update is a no-op and `getRepoRoot(did)` stays null. -/
theorem updateRepoRoot_last_writer_wins (s : DbState) (did root : String) :
    (∀ r₀, getRepoRoot s did = some r₀ →
        getRepoRoot (updateRepoRoot s did root) did = some root) ∧
    (getRepoRoot s did = none →
        updateRepoRoot s did root = s ∧
        getRepoRoot (updateRepoRoot s did root) did = none) := by
  constructor
  · intro r₀ h
    unfold getRepoRoot at h ⊢
    unfold updateRepoRoot
    cases hf : s.repoRoot.find? (fun p => p.1 == did) with
    | none => rw [hf] at h; exact absurd h (by simp)
    | some q => simp [find?_fst_update _ _ _ _ hf]
  · intro h
    have hf : s.repoRoot.find? (fun p => p.1 == did) = none := by
      unfold getRepoRoot at h
      cases hf : s.repoRoot.find? (fun p => p.1 == did) with
      | none => rfl
      | some q => rw [hf] at h; exact absurd h (by simp)
    have hmap := map_update_of_find?_none s.repoRoot did root hf
    constructor
    · unfold updateRepoRoot
      rw [hmap]
    · unfold getRepoRoot updateRepoRoot
      rw [hmap, hf]

/-- C3 witness: on a state whose repo-root table has `("did:alice", "cid0")`,
updating to `"cid1"` makes `getRepoRoot` return `"cid1"`. -/
theorem updateRepoRoot_last_writer_wins_witness :
    getRepoRoot (updateRepoRoot rootState "did:alice" "cid1") "did:alice" = some "cid1" :=
  (updateRepoRoot_last_writer_wins rootState "did:alice" "cid1").1 "cid0" rfl

/-! ## C4 — indexRecord rejects malformed URIs before any write -/

/-- C4: when the URI's did lacks the `did:` prefix, or its collection or
record key is empty, `indexRecord` fails with one of the three
contract-violation errors and carries the unchanged state (no write to the
log, the typed tables or the notifications store). -/
theorem indexRecord_rejects_malformed_uri (db : Database) (uri : AdxUri) (obj : Json)
    (now : String) (s : DbState)
    (h : strStartsWith uri.host "did:" = false ∨ uri.collection = "" ∨ uri.recordKey = "") :
    ∃ msg ∈ ["Expected indexed URI to contain DID",
             "Expected indexed URI to contain a collection",
             "Expected indexed URI to contain a record key"],
      db.indexRecord uri obj now s = .error (.thrown msg, s) := by
  by_cases h1 : strStartsWith uri.host "did:" = false
  · exact ⟨"Expected indexed URI to contain DID", by simp,
      by simp [Database.indexRecord, h1]⟩
  · have h1' : strStartsWith uri.host "did:" = true := by
      cases hb : strStartsWith uri.host "did:" <;> simp_all
    by_cases h2 : uri.collection = ""
    · refine ⟨"Expected indexed URI to contain a collection", by simp, ?_⟩
      have hlen : uri.collection.length < 1 := by
        rw [h2]; decide
      simp [Database.indexRecord, h1', hlen]
    · have h3 : uri.recordKey = "" := by tauto
      have h2' : ¬ uri.collection.length < 1 := by
        intro hc
        apply h2
        have : uri.collection.length = 0 := Nat.lt_one_iff.mp hc
        exact String.ext_iff.mpr (List.length_eq_zero.mp this)
      refine ⟨"Expected indexed URI to contain a record key", by simp, ?_⟩
      have hlen : uri.recordKey.length < 1 := by
        rw [h3]; decide
      simp [Database.indexRecord, h1', h2', hlen]

/-- C4 witness: indexing a URI whose did is `"alice"` (no identity prefix)
fails with the DID contract-violation error and the untouched state. -/
theorem indexRecord_rejects_malformed_uri_witness :
    ∃ msg ∈ ["Expected indexed URI to contain DID",
             "Expected indexed URI to contain a collection",
             "Expected indexed URI to contain a record key"],
      exDb.indexRecord ⟨"alice", "app.bsky.post", "k1"⟩ (.str "x") "t0" oneRecState =
        .error (.thrown msg, oneRecState) :=
  indexRecord_rejects_malformed_uri exDb ⟨"alice", "app.bsky.post", "k1"⟩ (.str "x") "t0"
    oneRecState (Or.inl (by decide))

/-! ## C5 — validateRecord never raises -/

/-- C5: `validateRecord` is total: for an unregistered collection it returns
an `Incompatible` verdict carrying the `Schema not found` message (marked
invalid) instead of raising the lookup error, and for a registered collection
it returns exactly the plugin's `validateSchema` verdict. -/
theorem validateRecord_unregistered_verdict (db : Database) (coll : String) (obj : Json) :
    (db.records.find? (fun p => p.collection == coll) = none →
      (db.validateRecord coll obj).code = .incompatible ∧
      (db.validateRecord coll obj).valid = false ∧
      "Schema not found" ∈ (db.validateRecord coll obj).messages) ∧
    (∀ table, db.records.find? (fun p => p.collection == coll) = some table →
      db.validateRecord coll obj = table.validateSchema obj) := by
  constructor
  · intro h
    simp [Database.validateRecord, Database.findTableForCollection, h,
      ValidationResult.addError]
  · intro table h
    simp [Database.validateRecord, Database.findTableForCollection, h]

/-- C5 witness: on the database with no registered plugins, validation of any
collection yields the Incompatible / `Schema not found` verdict. -/
theorem validateRecord_unregistered_verdict_witness :
    (emptyDb.validateRecord "app.bsky.post" (.str "x")).code = .incompatible ∧
    (emptyDb.validateRecord "app.bsky.post" (.str "x")).valid = false ∧
    "Schema not found" ∈ (emptyDb.validateRecord "app.bsky.post" (.str "x")).messages :=
  (validateRecord_unregistered_verdict emptyDb "app.bsky.post" (.str "x")).1 rfl

/-! ## C6 — canIndexRecord agrees with validateRecord but propagates NotFound -/

/-- C6: for a registered collection, `canIndexRecord` returns exactly the
`valid` flag of `validateRecord`'s verdict; for an unregistered collection it
propagates the NotFound lookup error instead of returning a verdict. -/
theorem canIndexRecord_matches_validateRecord (db : Database) (coll : String) (obj : Json) :
    (∀ table, db.records.find? (fun p => p.collection == coll) = some table →
      db.canIndexRecord coll obj = .ok (db.validateRecord coll obj).valid) ∧
    (db.records.find? (fun p => p.collection == coll) = none →
      db.canIndexRecord coll obj = .error (.thrown "Could not find table for collection")) := by
  constructor
  · intro table h
    simp [Database.canIndexRecord, Database.validateRecord,
      Database.findTableForCollection, h]
  · intro h
    simp [Database.canIndexRecord, Database.findTableForCollection, h]

/-- C6 witness: on the database whose only plugin handles `app.bsky.post`,
`canIndexRecord` returns the verdict's `valid` flag for that collection. -/
theorem canIndexRecord_matches_validateRecord_witness :
    exDb.canIndexRecord "app.bsky.post" (.str "x") =
      .ok (exDb.validateRecord "app.bsky.post" (.str "x")).valid :=
  (canIndexRecord_matches_validateRecord exDb "app.bsky.post" (.str "x")).1 okPlugin rfl

/-! ## C8 — feed projection -/

/-- C8: `rowToFeedItem` is pure and field-wise determined by the row: the
author always comes from the row's author fields; `repostedBy` is the row's
originator fields exactly when the row is a repost, absent otherwise; and
`myState.like` / `myState.repost` are the row's `requesterLike` /
`requesterRepost` (absent when those are null). -/
theorem rowToFeedItem_projection (row : FeedRow) :
    (rowToFeedItem row).author =
      ⟨row.authorDid, row.authorName, row.authorDisplayName⟩ ∧
    (row.type = .repost → (rowToFeedItem row).repostedBy =
      some ⟨row.originatorDid, row.originatorName, row.originatorDisplayName⟩) ∧
    (row.type ≠ .repost → (rowToFeedItem row).repostedBy = none) ∧
    (rowToFeedItem row).myState.like = row.requesterLike ∧
    (rowToFeedItem row).myState.repost = row.requesterRepost := by
  refine ⟨rfl, ?_, ?_, rfl, rfl⟩ <;> intro h <;> simp [rowToFeedItem, h]

/-- C8 witness: the specified scenario — a repost row with
`authorDid = "did:x"`, `originatorDid = "did:y"`, `requesterLike = null`,
`requesterRepost = "at://did:x/app.x.repost/abc"` projects to
`author.did = "did:x"`, `repostedBy.did = "did:y"`, absent `myState.like`,
and `myState.repost = "at://did:x/app.x.repost/abc"`. -/
theorem rowToFeedItem_projection_witness :
    (rowToFeedItem exFeedRow).author.did = "did:x" ∧
    (rowToFeedItem exFeedRow).repostedBy = some ⟨"did:y", "y.test", none⟩ ∧
    (rowToFeedItem exFeedRow).myState.like = none ∧
    (rowToFeedItem exFeedRow).myState.repost = some "at://did:x/app.x.repost/abc" := by
  have h := rowToFeedItem_projection exFeedRow
  exact ⟨by rw [h.1]; rfl, h.2.1 rfl, h.2.2.2.1, h.2.2.2.2⟩

/-! ## C9 — verifyUserPassword is case-sensitive, getUser is not -/

/-- C9: `getUser` matches usernames case-insensitively while
`verifyUserPassword` matches them exactly: for a stored user and a query
string equal to the username up to letter case but not identical to it,
`getUser` finds the user yet `verifyUserPassword` returns null even when the
password verifies. -/
theorem verifyUserPassword_case_sensitive (verify : String → String → Bool)
    (u : UserRow) (q password : String) (s : DbState)
    (hs : s.user = [u])
    (hdid : strStartsWith q "did:" = false)
    (hcase : upper u.username = upper q)
    (hne : u.username ≠ q) :
    getUser s q = some u ∧ verifyUserPassword verify s q password = none := by
  constructor
  · rw [getUser, if_neg (by simp [hdid]), hs]
    exact List.find?_cons_of_pos _ (by simp [hcase])
  · have hnone : s.user.find? (fun x => x.username == q) = none := by
      rw [hs]
      exact List.find?_eq_none.mpr (by simp [hne])
    simp [verifyUserPassword, hnone]

/-- C9 witness: the user stored as `"Alice"` is found by `getUser "alice"`,
but `verifyUserPassword "alice" pw` returns null even with a scrypt oracle
that accepts everything. -/
theorem verifyUserPassword_case_sensitive_witness :
    getUser userState "alice" = some exUser ∧
    verifyUserPassword (fun _ _ => true) userState "alice" "pw" = none :=
  verifyUserPassword_case_sensitive (fun _ _ => true) exUser "alice" "pw" userState
    rfl (by decide) (by decide) (by decide)

/-! ## C10 — deleteRecord on an unregistered collection changes nothing -/

/-- C10: when no plugin is registered for the URI's collection,
`deleteRecord` fails with the NotFound lookup error before issuing any of its
three removals, carrying the unchanged state. -/
theorem deleteRecord_unregistered_state_unchanged (db : Database) (uri : AdxUri)
    (s : DbState)
    (h : db.records.find? (fun p => p.collection == uri.collection) = none) :
    db.deleteRecord uri s = .error (.thrown "Could not find table for collection", s) := by
  simp [Database.deleteRecord, Database.findTableForCollection, h]

/-- C10 witness: deleting a record of an unregistered collection on the
plugin-less database leaves the populated state untouched inside the NotFound
error. -/
theorem deleteRecord_unregistered_state_unchanged_witness :
    emptyDb.deleteRecord exUri1 oneRecState =
      .error (.thrown "Could not find table for collection", oneRecState) :=
  deleteRecord_unregistered_state_unchanged emptyDb exUri1 oneRecState rfl

/-- Membership inversion for the rows returned by `listRecordsForCollection`:
every returned row is a log row satisfying the WHERE clause. -/
theorem mem_listRecordsRows {s : DbState} {did coll : String} {limit : Nat}
    {reverse : Bool} {before after : Option String} {r : RawRecord}
    (h : r ∈ listRecordsRows s did coll limit reverse before after) :
    r ∈ s.record ∧ matchesQuery did coll before after r = true := by
  simp only [listRecordsRows] at h
  have h' := List.mem_of_mem_take h
  have h'' : r ∈ s.record.filter (matchesQuery did coll before after) := by
    split at h'
    · simpa using (List.mem_insertionSort _).mp h'
    · simpa using (List.mem_insertionSort _).mp h'
  exact List.mem_filter.mp h''

/-- C1: after a successful `indexRecord(uri, obj)`, `getRecord(uri)` returns
a value deep-equal to `obj`, and `uri.collection` appears in
`listCollectionsForDid(uri.did)`. -/
theorem indexRecord_roundtrip (db : Database) (uri : AdxUri) (obj : Json) (now : String)
    (s s' : DbState) (h : db.indexRecord uri obj now s = .ok s') :
    getRecord s' uri = some obj ∧ uri.collection ∈ listCollectionsForDid s' uri.host := by
  simp only [Database.indexRecord] at h
  split at h
  · exact absurd h (by simp)
  split at h
  · exact absurd h (by simp)
  split at h
  · exact absurd h (by simp)
  split at h
  · exact absurd h (by simp)
  next hdup =>
  split at h
  · exact absurd h (by simp)
  next table hfind =>
  injection h with h
  subst h
  have hnodup : ∀ r ∈ s.record, ¬(r.uri == uri.toStr) = true := by
    intro r hr
    intro hb
    exact hdup (List.any_eq_true.mpr ⟨r, hr, hb⟩)
  constructor
  · simp only [getRecord, notificationsProcess, pluginInsert]
    rw [List.find?_append, List.find?_eq_none.mpr hnodup]
    simp
  · simp only [listCollectionsForDid, notificationsProcess, pluginInsert]
    refine List.mem_map.mpr
      ⟨{ uri := uri.toStr, did := uri.host, collection := uri.collection,
         recordKey := uri.recordKey, raw := obj, indexedAt := now, receivedAt := now },
       List.mem_filter.mpr ⟨List.mem_append_right _ (List.mem_singleton.mpr rfl), by simp⟩,
       rfl⟩

/-- C1 witness: indexing `exUri1` with payload `"hello"` into the empty state
succeeds with `oneRecState`, where the record is readable and the collection
listed. -/
theorem indexRecord_roundtrip_witness :
    getRecord oneRecState exUri1 = some (.str "hello") ∧
    exUri1.collection ∈ listCollectionsForDid oneRecState exUri1.host :=
  indexRecord_roundtrip exDb exUri1 (.str "hello") "t0" emptyState oneRecState rfl

/-- A point lookup misses when no log row carries the URI's string form. -/
theorem getRecord_eq_none_of_all_ne (s : DbState) (uri : AdxUri)
    (h : ∀ r ∈ s.record, r.uri ≠ uri.toStr) : getRecord s uri = none := by
  have hfnone : s.record.find? (fun r => r.uri == uri.toStr) = none :=
    List.find?_eq_none.mpr fun r hr => by simpa using h r hr
  simp [getRecord, hfnone]

/-- C7: after `deleteRecord(uri)` succeeds, `getRecord(uri)` returns null and
the URI no longer appears among the results of `listRecordsForCollection` for
its identity and collection, under any limit, direction and bounds. -/
theorem deleteRecord_removes_traces (db : Database) (uri : AdxUri) (s s' : DbState)
    (h : db.deleteRecord uri s = .ok s') :
    getRecord s' uri = none ∧
    ∀ limit reverse before after,
      ∀ p ∈ Database.listRecordsForCollection s' uri.host uri.collection
          limit reverse before after,
        p.1 ≠ uri.toStr := by
  simp only [Database.deleteRecord] at h
  split at h
  · exact absurd h (by simp)
  next table hfind =>
  injection h with h
  subst h
  have hrec : ∀ r ∈ (notificationsDeleteForRecord uri
      { pluginDelete table uri s with
        record := (pluginDelete table uri s).record.filter fun r =>
          r.uri ≠ uri.toStr }).record,
      r.uri ≠ uri.toStr := by
    intro r hr
    simp only [notificationsDeleteForRecord, pluginDelete] at hr
    have := (List.mem_filter.mp hr).2
    simpa using this
  constructor
  · exact getRecord_eq_none_of_all_ne _ uri hrec
  · intro limit reverse before after p hp
    obtain ⟨r, hr, rfl⟩ := List.mem_map.mp hp
    exact hrec r (mem_listRecordsRows hr).1

/-- C7 witness: deleting `exUri1` from `oneRecState` succeeds with the empty
state, where the record is gone and absent from every listing. -/
theorem deleteRecord_removes_traces_witness :
    getRecord emptyState exUri1 = none ∧
    ∀ limit reverse before after,
      ∀ p ∈ Database.listRecordsForCollection emptyState exUri1.host exUri1.collection
          limit reverse before after,
        p.1 ≠ exUri1.toStr :=
  deleteRecord_removes_traces exDb exUri1 oneRecState emptyState rfl

/-- With pairwise-distinct keys, a weakly ascending row list is strictly
ascending. -/
theorem pairwise_keyLt_of_sorted_asc {l : List RawRecord} (hs : l.Sorted keyAsc)
    (hnd : (l.map fun r => r.recordKey).Nodup) : l.Pairwise keyLt := by
  have hne : l.Pairwise fun a b => a.recordKey ≠ b.recordKey :=
    List.pairwise_map.mp hnd
  exact (hs.and hne).imp fun h =>
    lt_of_le_of_ne h.1 fun hd => h.2 (String.ext_iff.mpr hd)

/-- With pairwise-distinct keys, a weakly descending row list is strictly
descending. -/
theorem pairwise_keyGt_of_sorted_desc {l : List RawRecord} (hs : l.Sorted keyDesc)
    (hnd : (l.map fun r => r.recordKey).Nodup) : l.Pairwise keyGt := by
  have hne : l.Pairwise fun a b => a.recordKey ≠ b.recordKey :=
    List.pairwise_map.mp hnd
  exact (hs.and hne).imp fun h =>
    lt_of_le_of_ne h.1 fun hd => h.2 (String.ext_iff.mpr hd.symm)

/-- On rows with pairwise-distinct keys, the descending sort is the reverse
of the ascending sort. -/
theorem insertionSort_desc_eq_reverse_asc (l : List RawRecord)
    (hnd : (l.map fun r => r.recordKey).Nodup) :
    List.insertionSort keyDesc l = (List.insertionSort keyAsc l).reverse := by
  have hpermD := List.perm_insertionSort keyDesc l
  have hpermA := List.perm_insertionSort keyAsc l
  have hndD : ((List.insertionSort keyDesc l).map fun r => r.recordKey).Nodup :=
    ((hpermD.map _).nodup_iff).mpr hnd
  have hndA : ((List.insertionSort keyAsc l).map fun r => r.recordKey).Nodup :=
    ((hpermA.map _).nodup_iff).mpr hnd
  apply List.eq_of_perm_of_sorted (r := keyGt)
  · exact hpermD.trans (hpermA.symm.trans (List.reverse_perm _).symm)
  · exact pairwise_keyGt_of_sorted_desc (List.sorted_insertionSort keyDesc l) hndD
  · rw [List.Sorted, List.pairwise_reverse]
    exact pairwise_keyLt_of_sorted_asc (List.sorted_insertionSort keyAsc l) hndA

/-- C2 (amended): with a log holding records of one identity and collection
with pairwise-distinct keys, (a) the unbounded ascending query enumerates all
records in strictly ascending key order and `limit = m` returns its first
`m`; (b) `after` (resp. `before`) bounds every returned key strictly from
below (resp. above); (c) provided the limit does not cut the result
(`limit ≥` the number of records within the bounds), `reverse = true` returns
exactly the reversal of the `reverse = false` result. -/
theorem listRecords_pagination (s : DbState) (did coll : String) (m : Nat)
    (bopt aopt : Option String)
    (hall : ∀ r ∈ s.record, r.did = did ∧ r.collection = coll)
    (hnd : (s.record.map fun r => r.recordKey).Nodup)
    (hm : (s.record.filter (matchesQuery did coll bopt aopt)).length ≤ m) :
    ((listRecordsRows s did coll s.record.length false none none).Perm s.record ∧
     ((listRecordsRows s did coll s.record.length false none none).map
        fun r => r.recordKey.data).Sorted (· < ·) ∧
     listRecordsRows s did coll m false none none =
       (listRecordsRows s did coll s.record.length false none none).take m) ∧
    (∀ a r, r ∈ listRecordsRows s did coll m false bopt (some a) →
       strLt a r.recordKey = true) ∧
    (∀ b r, r ∈ listRecordsRows s did coll m false (some b) aopt →
       strLt r.recordKey b = true) ∧
    Database.listRecordsForCollection s did coll m true bopt aopt =
      (Database.listRecordsForCollection s did coll m false bopt aopt).reverse := by
  have hfilter : s.record.filter (matchesQuery did coll none none) = s.record :=
    List.filter_eq_self.mpr fun r hr => by
      simp [matchesQuery, (hall r hr).1, (hall r hr).2]
  have hfull : listRecordsRows s did coll s.record.length false none none =
      List.insertionSort keyAsc s.record := by
    simp only [listRecordsRows, hfilter]
    rw [if_neg Bool.false_ne_true]
    exact List.take_of_length_le
      (le_of_eq (List.perm_insertionSort keyAsc s.record).length_eq)
  refine ⟨⟨?_, ?_, ?_⟩, ?_, ?_, ?_⟩
  · rw [hfull]
    exact List.perm_insertionSort keyAsc s.record
  · rw [hfull]
    exact List.pairwise_map.mpr
      (pairwise_keyLt_of_sorted_asc (List.sorted_insertionSort keyAsc s.record)
        (((List.perm_insertionSort keyAsc s.record).map _).nodup_iff.mpr hnd))
  · rw [hfull]
    simp only [listRecordsRows, hfilter]
    rw [if_neg Bool.false_ne_true]
  · intro a r hr
    have h := (mem_listRecordsRows hr).2
    simp only [matchesQuery, Bool.and_eq_true] at h
    exact h.2
  · intro b r hr
    have h := (mem_listRecordsRows hr).2
    simp only [matchesQuery, Bool.and_eq_true] at h
    exact h.1.2
  · have hndF : ((s.record.filter (matchesQuery did coll bopt aopt)).map
        fun r => r.recordKey).Nodup :=
      List.Nodup.sublist ((List.filter_sublist s.record).map _) hnd
    have hlenD : (List.insertionSort keyDesc
        (s.record.filter (matchesQuery did coll bopt aopt))).length ≤ m := by
      rw [(List.perm_insertionSort keyDesc _).length_eq]
      exact hm
    have hlenA : (List.insertionSort keyAsc
        (s.record.filter (matchesQuery did coll bopt aopt))).length ≤ m := by
      rw [(List.perm_insertionSort keyAsc _).length_eq]
      exact hm
    have e1 : listRecordsRows s did coll m true bopt aopt =
        List.insertionSort keyDesc (s.record.filter (matchesQuery did coll bopt aopt)) := by
      simp only [listRecordsRows]
      rw [if_pos trivial]
      exact List.take_of_length_le hlenD
    have e2 : listRecordsRows s did coll m false bopt aopt =
        List.insertionSort keyAsc (s.record.filter (matchesQuery did coll bopt aopt)) := by
      simp only [listRecordsRows]
      rw [if_neg Bool.false_ne_true]
      exact List.take_of_length_le hlenA
    simp only [Database.listRecordsForCollection]
    rw [e1, e2, insertionSort_desc_eq_reverse_asc _ hndF, List.map_reverse]

/-- A first log row with key `k1`. -/
def exRecA : RawRecord :=
  { uri := "at://did:a/app.bsky.post/k1", did := "did:a",
    collection := "app.bsky.post", recordKey := "k1", raw := .null,
    indexedAt := "t0", receivedAt := "t0" }

/-- A second log row with key `k2` of the same identity and collection. -/
def exRecB : RawRecord :=
  { uri := "at://did:a/app.bsky.post/k2", did := "did:a",
    collection := "app.bsky.post", recordKey := "k2", raw := .null,
    indexedAt := "t0", receivedAt := "t0" }

/-- A log with two records in one collection of one identity. -/
def twoRecState : DbState :=
  { record := [exRecA, exRecB], typed := [], notifications := [], repoRoot := [],
    user := [] }

/-- C2 counterexample: with keys `k1 < k2` and `limit = 1`, the forward query
returns `{k1}` while the reverse query returns `{k2}` — reversing does change
set membership under a binding limit, so the claim's reverse clause fails as
stated. -/
theorem listRecords_reverse_limit_cex :
    Database.listRecordsForCollection twoRecState "did:a" "app.bsky.post" 1 true none none ≠
      (Database.listRecordsForCollection twoRecState "did:a" "app.bsky.post" 1 false
        none none).reverse := by
  intro h
  have h1 : (Database.listRecordsForCollection twoRecState "did:a" "app.bsky.post" 1 true
      none none).map Prod.fst = ["at://did:a/app.bsky.post/k2"] := rfl
  rw [h] at h1
  have h2 : ((Database.listRecordsForCollection twoRecState "did:a" "app.bsky.post" 1 false
      none none).reverse).map Prod.fst = ["at://did:a/app.bsky.post/k1"] := rfl
  rw [h2] at h1
  exact absurd h1 (by decide)

/-- C2 witness: on the two-record log with a non-binding limit, the reverse
query is the reversal of the forward query. -/
theorem listRecords_pagination_witness :
    Database.listRecordsForCollection twoRecState "did:a" "app.bsky.post" 2 true none none =
      (Database.listRecordsForCollection twoRecState "did:a" "app.bsky.post" 2 false
        none none).reverse :=
  (listRecords_pagination twoRecState "did:a" "app.bsky.post" 2 none none
    (by decide) (by decide) (by decide)).2.2.2
